import Mathlib

/-!
Verification of the `wc_utils.schema` object-schema engine
(`wc_utils/schema/core.py`, `wc_utils/schema/io.py`).

The embedding models Python floats as `Option ℚ` (`none` = NaN, `some q` a
finite value with exact rational arithmetic; IEEE rounding is idealized
away, which is irrelevant to the structural properties proved here), dates
as their proleptic-Gregorian ordinals, and Python exceptions as
`Except String`.
-/

deriving instance DecidableEq for Except

namespace WcSchema

/-- Idealized Python float: `none` is NaN, `some q` a finite value. -/
abbrev PyFloat := Option ℚ

/-- Python `float('nan')`. -/
def pyNan : PyFloat := none

/-- Python `isnan`. -/
def pyIsNan (x : PyFloat) : Bool := x.isNone

/-- Python `==` on floats: NaN compares unequal to everything, including itself. -/
def pyEq : PyFloat → PyFloat → Bool
  | some a, some b => a = b
  | _, _ => false

/-- Python `<` on floats: any comparison with NaN is `False`. -/
def pyLt : PyFloat → PyFloat → Bool
  | some a, some b => a < b
  | _, _ => false

/-- Python float subtraction: NaN propagates. -/
def pySub : PyFloat → PyFloat → PyFloat
  | some a, some b => some (a - b)
  | _, _ => none

/-- Python `abs` on floats: NaN propagates. -/
def pyAbs : PyFloat → PyFloat
  | some a => some |a|
  | none => none

/-- Python float division: a zero divisor raises `ZeroDivisionError` (even for a
NaN numerator, as in CPython); a NaN divisor or NaN numerator otherwise yields NaN. -/
def pyDiv (x y : PyFloat) : Except String PyFloat :=
  match y with
  | some b =>
    if b = 0 then .error "ZeroDivisionError: float division by zero"
    else
      match x with
      | some a => .ok (some (a / b))
      | none => .ok none
  | none => .ok none

/-- The literal `1e-10` from `FloatAttribute.value_equal`. -/
def relTol : ℚ := 1 / 10 ^ 10

/-- `FloatAttribute.value_equal` (core.py 1740-1751):
`val1 == val2 or (isnan(val1) and isnan(val2)) or abs((val1 - val2) / val1) < 1e-10`.
Python `or` short-circuits, so the division only runs when both earlier
disjuncts are false. -/
def floatValueEqual (val1 val2 : PyFloat) : Except String Bool :=
  if pyEq val1 val2 then .ok true
  else if pyIsNan val1 && pyIsNan val2 then .ok true
  else do
    let q ← pyDiv (pySub val1 val2) val1
    .ok (pyLt (pyAbs q) (some relTol))

/-- `FloatAttribute.clean` (core.py 1752-1770), restricted to the `None`/float
primitives that `FloatAttribute.serialize` can produce (the source also
coerces numeric strings): `None`/empty becomes NaN, a float is kept as is. -/
def floatClean (value : Option PyFloat) : PyFloat × Option String :=
  match value with
  | none => (pyNan, none)
  | some v => (v, none)

/-- `FloatAttribute.serialize` (core.py 1802-1813): NaN serializes to `None`,
every other float to itself. -/
def floatSerialize (value : PyFloat) : Option PyFloat :=
  if pyIsNan value then none else some value

/-- `Attribute.deserialize` (core.py 1491-1501) delegates to `clean`;
`FloatAttribute` does not override it. -/
def floatDeserialize (value : Option PyFloat) : PyFloat × Option String :=
  floatClean value

/-- `BooleanAttribute.serialize` (core.py 1687-1697): the identity. -/
def booleanSerialize (value : Option Bool) : Option Bool := value

/-- `BooleanAttribute.clean` (core.py 1630-1662), restricted to the
`None`/bool primitives that `BooleanAttribute.serialize` produces: the
string branches do not fire, and the code then runs `float(value)` inside
a `try` that catches only `ValueError` — for `None` this raises an
uncaught `TypeError`; for a bool, `float` gives `0.0`/`1.0` and the value
is kept. -/
def booleanClean (value : Option Bool) :
    Except String (Option Bool × Option String) :=
  match value with
  | none => .error "TypeError: float() argument must be a string or a number"
  | some b => .ok (some b, none)

/-- `Attribute.deserialize` delegates to `clean`; `BooleanAttribute` does
not override it. -/
def booleanDeserialize (value : Option Bool) :
    Except String (Option Bool × Option String) :=
  booleanClean value

/-- A date, represented by its proleptic Gregorian ordinal
(`datetime.date.toordinal`); `693596` is the ordinal of 1900-01-01 and
`3652059` that of 9999-12-31. -/
abbrev PyDate := Nat

/-- Ordinal of `date(1900, 1, 1)`. -/
def ord19000101 : Nat := 693596

/-- Ordinal of `date(9999, 12, 31)`, the largest ordinal `date.fromordinal` accepts. -/
def ordMax : Nat := 3652059

/-- Python `int(f)` on a float: truncation toward zero. -/
def pyTrunc (q : ℚ) : Int :=
  if 0 ≤ q then ⌊q⌋ else ⌈q⌉

/-- `datetime.date.fromordinal`: defined for ordinals in `[1, 3652059]`,
raising `ValueError` outside that range. -/
def dateFromOrdinal (n : Int) : Except String PyDate :=
  if 1 ≤ n ∧ n ≤ (ordMax : Int) then .ok n.toNat
  else .error "ValueError: ordinal out of range"

/-- `DateAttribute.serialize` (core.py 2282-2292):
`value.toordinal() - date(1900, 1, 1).toordinal() + 1.`, a float. -/
def dateSerialize (d : PyDate) : ℚ :=
  (d : ℚ) - (ord19000101 : ℚ) + 1

/-- `DateAttribute.clean` (core.py 2212-2252), restricted to the
`None`/float primitives that `DateAttribute.serialize` produces (the
source also accepts `date`/`datetime` objects and strings): a float equal
to its truncation maps through `date.fromordinal(i + 693596 - 1)`; a
`ValueError` raised inside the `try` block (including one from
`fromordinal`) falls through to the final error return. -/
def dateClean (value : Option ℚ) : Option PyDate × Option String :=
  match value with
  | none => (none, none)
  | some q =>
    let i := pyTrunc q
    if q = (i : ℚ) then
      match dateFromOrdinal (i + (ord19000101 : Int) - 1) with
      | .ok d => (some d, none)
      | .error _ => (none, some "Value must be an instance of `date`")
    else (none, some "Value must be an instance of `date`")

/-- `Attribute.deserialize` delegates to `clean`; `DateAttribute` does not
override it. -/
def dateDeserialize (value : Option ℚ) : Option PyDate × Option String :=
  dateClean value

/-!
The Root/Leaf universe: the schema of the spec's scenario, instantiated at
two concrete model types.

`Root` declares `label = StringAttribute(primary=True, unique=True)`.
`Leaf` declares, in order, `root = ManyToOneAttribute(Root,
related_name='leaves')`, `id = StringAttribute(primary=True)` and
`f = FloatAttribute()` (the float attribute exercises
`FloatAttribute.value_equal` inside `Model.is_equal`).

Instances live in an arena: an object is a `Nat` handle tagged with its
class, attribute stores are functions from handles, and Python's
identity-based `is`/`in` become handle equality (Model does not override
`__eq__`).
-/

/-- An object of the Root/Leaf universe: a handle tagged with its class. -/
inductive RLObj
  | root (h : Nat)
  | leaf (h : Nat)
  deriving DecidableEq, Repr

/-- Arena of Root and Leaf instances with their attribute stores. -/
structure RLState where
  roots : List Nat
  leaves : List Nat
  rootLabel : Nat → String
  leafId : Nat → String
  leafF : Nat → PyFloat
  leafRoot : Nat → Option Nat
  rootLeaves : Nat → List Nat

/-- Python `list.remove`: deletes the first occurrence, raising `ValueError`
when the value is absent. -/
def pyListRemove (xs : List Nat) (v : Nat) : Except String (List Nat) :=
  match xs with
  | [] => .error "ValueError: list.remove(x): x not in list"
  | x :: rest =>
    if x = v then .ok rest
    else do
      let r ← pyListRemove rest v
      .ok (x :: r)

/-- `ManyToOneRelatedManager.append` with `propagate=False` (core.py
3846-3858), the only mode reachable from `ManyToOneAttribute.set_value`:
a no-op when the value is already present, otherwise a plain list append. -/
def managerAppend (xs : List Nat) (v : Nat) : List Nat :=
  if v ∈ xs then xs else xs ++ [v]

/-- The assignment `leaf.root = new_value`: `Model.__setattr__` (core.py
620-637) dispatches to `ManyToOneAttribute.set_value` (core.py 2907-2931)
and then stores the returned value.  `set_value` returns unchanged when the
current value `is` the new one; otherwise it removes `obj` from the old
target's `leaves` manager (`remove` with `update_list=True,
propagate=False`) and appends it to the new target's manager (`append`
with `propagate=False`). -/
def leafSetRoot (s : RLState) (obj : Nat) (newValue : Option Nat) :
    Except String RLState := do
  let curValue := s.leafRoot obj
  if curValue = newValue then
    return s
  let s1 ←
    match curValue with
    | some c => do
      let l ← pyListRemove (s.rootLeaves c) obj
      pure { s with rootLeaves := fun r => if r = c then l else s.rootLeaves r }
    | none => pure s
  let s2 :=
    match newValue with
    | some n =>
      { s1 with rootLeaves := fun r =>
          if r = n then managerAppend (s1.rootLeaves n) obj else s1.rootLeaves r }
    | none => s1
  return { s2 with leafRoot := fun x => if x = obj then newValue else s2.leafRoot x }

/-- The bidirectional-consistency invariant of the Root/Leaf universe:
the scalar side and the mirrored collection agree, and no manager holds
duplicates. -/
def RLConsistent (s : RLState) : Prop :=
  (∀ l r, s.leafRoot l = some r ↔ l ∈ s.rootLeaves r) ∧
  (∀ r, (s.rootLeaves r).Nodup)

/-- Neighbor list of an object, in the order `Model.get_related` visits
attributes: for a Root, `Meta.attributes = {label}` contributes nothing and
`Meta.related_attributes = {leaves}` contributes the manager's list (an
`extend`); for a Leaf, the `root` attribute contributes its value when not
`None` (an `append`), and `id`, `f` are not relationship attributes. -/
def rlNeighbors (s : RLState) : RLObj → List RLObj
  | .root r => (s.rootLeaves r).map RLObj.leaf
  | .leaf l =>
    match s.leafRoot l with
    | some r => [RLObj.root r]
    | none => []

/-- The `while objs_to_explore` loop of `Model.get_related` (core.py
1149-1176).  The explore stack is kept top-first (Python pops from the
end and `extend` puts the last pushed element on top, hence the
`reverse`); `related` accumulates in append order; `initIter` suppresses
adding the very first popped object (`self`).  Fuel-indexed because the
loop's termination argument (each object enters `related` at most once)
is extrinsic; `none` means fuel ran out and is never reached with the
fuel supplied by `getRelated`. -/
def getRelatedAux (s : RLState) :
    Nat → List RLObj → List RLObj → Bool → Option (List RLObj)
  | _, [], related, _ => some related
  | 0, _ :: _, _, _ => none
  | fuel + 1, obj :: stack, related, initIter =>
    if obj ∈ related then
      getRelatedAux s fuel stack related initIter
    else
      let related' := if initIter then related else related ++ [obj]
      getRelatedAux s fuel ((rlNeighbors s obj).reverse ++ stack) related' false

/-- Fuel bound for `getRelatedAux`: generous enough that the loop always
finishes on states whose managers list only arena objects. -/
def rlFuel (s : RLState) : Nat :=
  ((s.roots.length + s.leaves.length + 2) * (s.roots.length + s.leaves.length + 2)) * 4 + 4

/-- `Model.get_related` (core.py 1149-1176). -/
def getRelated (s : RLState) (x : RLObj) : Option (List RLObj) :=
  getRelatedAux s (rlFuel s) [x] [] true

/-!
`Model.is_equal` (core.py 681-808) over the Root/Leaf universe.

The `_seen` dictionary maps ordered pairs `(self, other)` — where `other`
may be Python `None` — to `True`, `False`, or the in-progress marker
`None`; it is threaded through every recursive call.  `is_equal` itself
can return that `None` marker when a pair is looked up while its own
comparison is still running; callers test the result with `== False` /
`!= False`, so `None` counts as provisionally equal.
-/

/-- A `_seen` key: `(self, other)`, the second component Python-optional. -/
abbrev RLKey := RLObj × Option RLObj

/-- The `_seen` dictionary, as an association list whose latest binding
shadows earlier ones (dict assignment only ever overwrites). -/
abbrev RLMemo := List (RLKey × Option Bool)

/-- Dictionary lookup in `_seen`. -/
def memoFind (m : RLMemo) (k : RLKey) : Option (Option Bool) :=
  match m with
  | [] => none
  | (k', v) :: rest => if k' = k then some v else memoFind rest k

/-- Dictionary assignment `_seen[key] = v`. -/
def memoSet (m : RLMemo) (k : RLKey) (v : Option Bool) : RLMemo :=
  (k, v) :: m

/-- `Model._is_equal_attributes` (core.py 722-756): identity shortcut, class
check, then every attribute in declaration order — non-relationship
attributes through the kind's `value_equal`, a `RelatedManager` by length
only, a scalar relationship only by the `val is None and other_val is not
None` test.  For a Leaf the chain is `root`, `id`, `f`; for a Root it is
`label`, then the mirrored `leaves`.  `FloatAttribute.value_equal` can
raise, which propagates. -/
def isEqualAttributes (s : RLState) (x : RLObj) (y : Option RLObj) :
    Except String Bool :=
  if some x = y then .ok true
  else
    match x, y with
    | .root a, some (.root b) =>
      if s.rootLabel a ≠ s.rootLabel b then .ok false
      else if (s.rootLeaves a).length ≠ (s.rootLeaves b).length then .ok false
      else .ok true
    | .leaf a, some (.leaf b) =>
      if (s.leafRoot a).isNone ∧ (s.leafRoot b).isSome then .ok false
      else if s.leafId a ≠ s.leafId b then .ok false
      else do
        let e ← floatValueEqual (s.leafF a) (s.leafF b)
        .ok e
    | _, _ => .ok false

/-- The inner loop of `Model._is_equal_related_set` (core.py 783-808),
parameterized by the recursive `is_equal` call (which threads `_seen`):
scan `other_val` for the first element `ov` with `v.is_equal(ov, _seen)
!= False` (the in-progress `None` counts as a match) and pop it; `none`
when no element matches. -/
def scanMatchF
    (eqFn : RLMemo → Nat → Nat → Except String (Option Bool × RLMemo)) :
    RLMemo → Nat → List Nat → Except String (Option (List Nat) × RLMemo)
  | seen, _, [] => .ok (none, seen)
  | seen, v, ov :: rest => do
    let (r, seen1) ← eqFn seen v ov
    if r ≠ some false then .ok (some rest, seen1)
    else do
      let (res, seen2) ← scanMatchF eqFn seen1 v rest
      match res with
      | some rem => .ok (some (ov :: rem), seen2)
      | none => .ok (none, seen2)

/-- The outer loop of `Model._is_equal_related_set` (core.py 783-808):
each element of `val` must claim some yet-unclaimed element of
`other_val`. -/
def greedyMatchF
    (eqFn : RLMemo → Nat → Nat → Except String (Option Bool × RLMemo)) :
    RLMemo → List Nat → List Nat → Except String (Bool × RLMemo)
  | seen, [], _ => .ok (true, seen)
  | seen, v :: vs, others => do
    let (res, seen1) ← scanMatchF eqFn seen v others
    match res with
    | some rem => greedyMatchF eqFn seen1 vs rem
    | none => .ok (false, seen1)

/-- `Model.is_equal` (core.py 681-720): memo lookup, identity shortcut,
`_is_equal_attributes`, in-progress marker, then the
`_is_equal_related_object` pass (scalar relationship values and
length-one managers) and the `_is_equal_related_set` pass (managers with
more than one element, greedily matched).  Fuel-indexed; the source
terminates because `_seen` grows by one pair per descent. -/
def isEqualAux (s : RLState) :
    Nat → RLMemo → RLObj → Option RLObj → Except String (Option Bool × RLMemo)
  | 0, _, _, _ => .error "fuel exhausted"
  | fuel + 1, seen, x, y =>
    match memoFind seen (x, y) with
    | some v => .ok (v, seen)
    | none =>
      if some x = y then .ok (some true, memoSet seen (x, y) (some true))
      else do
        let attrsEq ← isEqualAttributes s x y
        if attrsEq = false then .ok (some false, memoSet seen (x, y) (some false))
        else
          let seen1 := memoSet seen (x, y) none
          match x, y with
          | .leaf a, some (.leaf b) =>
            -- related-object pass: `root` is a scalar relationship value
            (match s.leafRoot a with
            | some r => do
              let (res, seen2) ←
                isEqualAux s fuel seen1 (.root r) ((s.leafRoot b).map RLObj.root)
              if res = some false then
                .ok (some false, memoSet seen2 (x, y) (some false))
              else .ok (some true, memoSet seen2 (x, y) (some true))
            | none => .ok (some true, memoSet seen1 (x, y) (some true)))
          | .root a, some (.root b) =>
            -- related-object pass: the `leaves` manager when its length is 1
            -- (`list(other_val)[0]` is only reached with the equal-length
            -- check of `_is_equal_attributes` already passed)
            (match s.rootLeaves a, s.rootLeaves b with
            | [va], vb :: _ => do
              let (res, seen2) ←
                isEqualAux s fuel seen1 (.leaf va) (some (.leaf vb))
              if res = some false then
                .ok (some false, memoSet seen2 (x, y) (some false))
              else .ok (some true, memoSet seen2 (x, y) (some true))
            | _, _ =>
              -- related-set pass: the `leaves` manager when its length is > 1
              if (s.rootLeaves a).length > 1 then do
                let (matched, seen2) ←
                  greedyMatchF
                    (fun m u w => isEqualAux s fuel m (.leaf u) (some (.leaf w)))
                    seen1 (s.rootLeaves a) (s.rootLeaves b)
                if matched then .ok (some true, memoSet seen2 (x, y) (some true))
                else .ok (some false, memoSet seen2 (x, y) (some false))
              else .ok (some true, memoSet seen1 (x, y) (some true)))
          | _, _ => .ok (some true, memoSet seen1 (x, y) (some true))

/-- Fuel bound for `isEqualAux`, generous for the arena's pair count. -/
def rlEqFuel (s : RLState) : Nat :=
  (s.roots.length + s.leaves.length + 2) ^ 3 + 3

/-- A top-level call `x.is_equal(y)` with a fresh `_seen` table; the result
is Python `True`/`False` (`some true` / `some false`). -/
def isEqualTop (s : RLState) (x y : RLObj) : Except String (Option Bool) :=
  (isEqualAux s (rlEqFuel s) [] x (some y)).map Prod.fst

/-!
The OneToOne universe: `A.rel = OneToOneAttribute(B, related_name='arev')`,
with `aRel` the forward scalar on A instances and `bRev` the mirrored
scalar on B instances.
-/

/-- Attribute stores of the OneToOne universe. -/
structure OOState where
  aRel : Nat → Option Nat
  bRev : Nat → Option Nat

/-- The assignment `a.rel = new_value`: `Model.__setattr__` dispatches to
`OneToOneAttribute.set_value` (core.py 2671-2698) and stores the returned
value.  `set_value` returns unchanged when the current value `is` the new
one; raises `ValueError` when `new_value` is truthy and its reverse
attribute is truthy; otherwise clears the old peer's reverse pointer and
installs `obj` as the new peer's reverse pointer (both with
`propagate=False`). -/
def oneToOneSetValue (s : OOState) (obj : Nat) (newValue : Option Nat) :
    Except String OOState :=
  let curValue := s.aRel obj
  if curValue = newValue then .ok s
  else if (match newValue with
           | some n => (s.bRev n).isSome
           | none => false) then
    .error "ValueError: Related attribute of `new_value` must be `None`"
  else
    let s1 :=
      match curValue with
      | some c => { s with bRev := fun b => if b = c then none else s.bRev b }
      | none => s
    let s2 :=
      match newValue with
      | some n => { s1 with bRev := fun b => if b = n then some obj else s1.bRev b }
      | none => s1
    .ok { s2 with aRel := fun a => if a = obj then newValue else s2.aRel a }

/-!
The Node universe for the tabular codec and uniqueness claims: a model
`Node` with the single attribute `id = StringAttribute(primary=True,
unique=True, max_length=1, verbose_name='Id')`, a second plain row model
`Extra` with no attributes, and an inline-oriented model `InlineM`.
`Node` has no relationship attributes, so `get_related` adds nothing.
-/

/-- A Node instance; with a single scalar attribute the object is just its
attribute store. -/
structure NodeObj where
  id : String
  deriving DecidableEq, Repr

/-- `StringAttribute.clean` (core.py 2008-2021) on the string-typed store:
`None` becomes `''`, a string is kept (non-strings are coerced with `str`,
which cannot arise here). -/
def stringClean (value : Option String) : String × Option String :=
  match value with
  | none => ("", none)
  | some v => (v, none)

/-- `StringAttribute.validate` (core.py 2023-2054) specialized to `Node.id`
(`min_length=0` is falsy so the minimum check is skipped; `max_length=1`;
`primary=True` forbids the empty string). -/
def nodeIdValidate (value : String) : List String :=
  (if value.length > 1 then ["Value must be less than 1 characters"] else []) ++
  (if value = "" then ["StringAttribute value for primary attribute cannot be empty"] else [])

/-- Modelled from the spec: `wc_utils.util.misc.quote` is imported by
core.py but `wc_utils/util/misc.py` is not under `src/`; error messages
are specified to name the offending value, so `quote` is modelled as
wrapping the value in single quotes. -/
def quote (s : String) : String := "\x27" ++ s ++ "\x27"

/-- The `unq_vals`/`rep_vals` loop of `Attribute.validate_unique` (core.py
1454-1478), with `unique_case_insensitive=False` so no lowering; Python's
set iteration order is modelled as insertion order (the claims below only
meet singleton sets). -/
def repeatedVals : List String → List String → List String → List String
  | [], _, rep => rep
  | v :: rest, unq, rep =>
    if v ∈ unq then
      if v ∈ rep then repeatedVals rest unq rep
      else repeatedVals rest unq (rep ++ [v])
    else repeatedVals rest (unq ++ [v]) rep

/-- `InvalidAttribute` (core.py 4069-4093): the offending attribute and its
messages. -/
structure InvalidAttribute where
  attrName : String
  messages : List String
  deriving DecidableEq, Repr

/-- `InvalidModel`: a model type and the uniqueness errors of a batch. -/
structure InvalidModel where
  modelName : String
  attributes : List InvalidAttribute
  deriving DecidableEq, Repr

/-- `Attribute.validate_unique` (core.py 1454-1478): collect repeated
values; when any exist, one `InvalidAttribute` whose single message joins
the quoted repeated values. -/
def attrValidateUnique (attrName : String) (values : List String) :
    Option InvalidAttribute :=
  let reps := repeatedVals values [] []
  if reps ≠ [] then
    some ⟨attrName,
      [attrName ++ " values must be unique, but these values are repeated: " ++
        String.intercalate ", " (reps.map quote)]⟩
  else none

/-- `Model.validate_unique` (core.py 1226-1283) for `Node`: the only
`unique` attribute is `id` and `unique_together` is empty, so the result
is one `InvalidModel` holding the `id` error, or `None`. -/
def nodeValidateUnique (objs : List NodeObj) : Option InvalidModel :=
  match attrValidateUnique "id" (objs.map NodeObj.id) with
  | some e => some ⟨"Node", [e]⟩
  | none => none

/-- `InvalidObject`: one instance and its attribute errors (the instance
identified here by its `id` store). -/
structure InvalidObject where
  objId : String
  messages : List String
  deriving DecidableEq, Repr

/-- `InvalidObjectSet`: the batch-level aggregate. -/
structure InvalidObjectSet where
  objects : List InvalidObject
  models : List InvalidModel
  deriving DecidableEq, Repr

/-- `Model.validate` for `Node` (core.py 1199-1224): only the `id`
attribute contributes, through `StringAttribute.validate`. -/
def nodeValidate (o : NodeObj) : List String := nodeIdValidate o.id

/-- `Validator.run` (core.py 4186-4250) over Node batches: `clean` every
object (string cleaning never fails, so this phase reports nothing), then
`validate` each object and run `Node.validate_unique` over the batch. -/
def validatorRun (objs : List NodeObj) : Option InvalidObjectSet :=
  let objectErrors := (objs.filter fun o => nodeValidate o ≠ []).map
    fun o => InvalidObject.mk o.id (nodeValidate o)
  let modelErrors := (nodeValidateUnique objs).toList
  if objectErrors ≠ [] ∨ modelErrors ≠ [] then
    some ⟨objectErrors, modelErrors⟩
  else none

/-- The model types handed to `Writer.run` in this universe. -/
inductive WModel
  | node
  | extra
  | inlineM
  deriving DecidableEq, Repr

/-- `Model.Meta.tabular_orientation` values. -/
inductive TabularOrientation
  | row
  | column
  | inline
  deriving DecidableEq, Repr

/-- Orientation of each universe model. -/
def wOrientation : WModel → TabularOrientation
  | .node => .row
  | .extra => .row
  | .inlineM => .inline

/-- `Meta.verbose_name_plural`, the sheet name of a row-oriented model. -/
def wSheetName : WModel → String
  | .node => "Nodes"
  | .extra => "Extras"
  | .inlineM => "Inlines"

/-- Modelled from the spec: the external `natsort` collaborator
(`natsorted(..., alg=ns.IGNORECASE)`), restricted to case-insensitive
lexicographic order; digit-run grouping is irrelevant to the claims
proved here. -/
def natsortBy (key : α → String) (xs : List α) : List α :=
  xs.mergeSort (fun a b => decide ((key a).toLower ≤ (key b).toLower))

/-- A written worksheet: cells are `None` or strings. -/
abbrev Sheet := List (List (Option String))

/-- `Writer.write_model` + `Writer.write_sheet` (io.py 92-167) for a
row-oriented universe model: the header row of attribute verbose names
followed by one row per object, objects natural-sorted by their
serialized primary attribute (`Model.serialize` of a Node is its `id`);
`StringAttribute.serialize` is the identity. -/
def writeModelSheet (objects : List NodeObj) (m : WModel) : String × Sheet :=
  match m with
  | .node => ("Nodes", [[some "Id"]] ++ (natsortBy NodeObj.id objects).map fun o => [some o.id])
  | .extra => ("Extras", [[]])
  | .inlineM => ("Inlines", [[]])

/-- The per-model sheet emission of the `Writer.run` loop: inline-oriented
models are skipped (`continue`), every other model is written with its
grouped objects. -/
def writerSheetFor (objects : List NodeObj) (m : WModel) : Option (String × Sheet) :=
  if wOrientation m = TabularOrientation.inline then none
  else some (writeModelSheet (if m = WModel.node then objects else []) m)

/-- `Writer.run` (io.py 28-90): collect related objects (none for Node),
validate the whole set, and on any error execute `warnings.warn(...)` —
which raises `NameError`, because io.py imports only the bare `warn`
function and never binds the module name `warnings`; otherwise write one
sheet per model in the caller's order followed by the models not listed
(natural-sorted — at most one here), skipping inline-oriented models. -/
def writerRun (objects : List NodeObj) (models : List WModel) :
    Except String (List (String × Sheet)) :=
  match validatorRun objects with
  | some _ => .error "NameError: name \x27warnings\x27 is not defined"
  | none =>
    let unordered := if objects ≠ [] ∧ WModel.node ∉ models then [WModel.node] else []
    .ok ((models ++ unordered).filterMap (writerSheetFor objects))

/-!
`Reader` header matching (io.py 246-252 and 336-346).
-/

/-- A model attribute's header-matching metadata. -/
structure ModelAttrMeta where
  name : String
  verboseName : String
  deriving DecidableEq, Repr

/-- Modelled from the spec: `wc_utils.schema.utils.get_attribute_by_verbose_name`
is imported by io.py but `wc_utils/schema/utils.py` is not under `src/`;
the spec says headers are matched against an attribute's name or display
name, so the lookup returns the first attribute whose name or verbose
name equals the header. -/
def getAttributeByVerboseName (attrs : List ModelAttrMeta) (h : String) :
    Option ModelAttrMeta :=
  attrs.find? fun a => a.name == h || a.verboseName == h

/-- The header-matching loop of `Reader.read_model` (io.py 336-346): every
header cell that matches no attribute contributes the bare string
`Header "..." does not match any attributes`, with no row or column
information. -/
def readModelHeaderErrors (attrs : List ModelAttrMeta) (headings : List String) :
    List String :=
  headings.filterMap fun h =>
    match getAttributeByVerboseName attrs h with
    | some _ => none
    | none => some ("Header \"" ++ h ++ "\" does not match any attributes")

/-- The error aggregation of `Reader.run` (io.py 246-252): one message
naming each model followed by its errors, each indented. -/
def readerAggregateMsg (modelName : String) (errs : List String) : String :=
  "The model cannot be loaded because the spreadsheet contains error(s):" ++
  "\n  " ++ modelName ++ ":" ++ String.join (errs.map fun e => "\n    " ++ e)

/-- Substring test used to state what a message does and does not mention. -/
def strContains (hay sub : String) : Bool :=
  decide (List.IsInfix sub.toList hay.toList)

/-- Whether a model gets its own sheet (`Writer.run` skips inline models). -/
def nonInline (m : WModel) : Bool := !(wOrientation m == TabularOrientation.inline)

/-!
Concrete arena states used by the scenario and counterexample theorems.
-/

/-- Two unrelated Leaf instances whose `id`s agree and whose float
attribute holds `0.0` on one side and `1.0` on the other. -/
def floatPairState : RLState where
  roots := []
  leaves := [0, 1]
  rootLabel := fun _ => ""
  leafId := fun _ => "a"
  leafF := fun h => if h = 0 then some 0 else some 1
  leafRoot := fun _ => none
  rootLeaves := fun _ => []

/-- One Root and one Leaf pointing back at it: the consistent state
produced by `Leaf(root=r)`. -/
def cycleState : RLState where
  roots := [0]
  leaves := [0]
  rootLabel := fun _ => "r"
  leafId := fun _ => "l"
  leafF := fun _ => some 0
  leafRoot := fun l => if l = 0 then some 0 else none
  rootLeaves := fun r => if r = 0 then [0] else []

/-- The spec scenario's starting arena: Root `0` (`r`) and the two Leaf
instances `1` (`l1`) and `2` (`l2`), not yet linked. -/
def scenarioState : RLState where
  roots := [0]
  leaves := [1, 2]
  rootLabel := fun _ => "r"
  leafId := fun h => if h = 1 then "l1" else "l2"
  leafF := fun _ => some 0
  leafRoot := fun _ => none
  rootLeaves := fun _ => []

/-- A OneToOne store in which B instance `1` already has a reverse pointer
to A instance `5`, while A instance `0` is unlinked. -/
def ooState0 : OOState where
  aRel := fun _ => none
  bRev := fun b => if b = 1 then some 5 else none

/-!
Theorems.
-/

/-- C9: for floats `a`, `b` with `a` nonzero, `FloatAttribute.value_equal(a, b)`
returns a boolean, and it is `True` exactly when `a == b`, or both are NaN,
or `|a - b| / |a| < 1e-10` (the tolerance divides by the first operand). -/
theorem floatValueEqual_spec (a b : PyFloat) (ha : a ≠ some 0) :
    ∃ c, floatValueEqual a b = .ok c ∧
      (c = true ↔
        pyEq a b = true ∨ (a = pyNan ∧ b = pyNan) ∨
          ∃ x y, a = some x ∧ b = some y ∧ |x - y| / |x| < relTol) := by
  match a, b with
  | none, none =>
    exact ⟨true, by simp [floatValueEqual, pyEq, pyIsNan], by simp [pyNan]⟩
  | none, some y =>
    refine ⟨false, ?_, ?_⟩
    · simp [floatValueEqual, pyEq, pyIsNan, pySub, pyDiv, pyAbs, pyLt, bind,
        Except.bind]
    · simp [pyNan, pyEq]
  | some x, none =>
    have hx : x ≠ 0 := by simpa using ha
    refine ⟨false, ?_, ?_⟩
    · simp [floatValueEqual, pyEq, pyIsNan, pySub, pyDiv, pyAbs, pyLt, hx, bind,
        Except.bind]
    · simp [pyNan, pyEq]
  | some x, some y =>
    have hx : x ≠ 0 := by simpa using ha
    by_cases hxy : x = y
    · subst hxy
      exact ⟨true, by simp [floatValueEqual, pyEq], by simp [pyEq]⟩
    · refine ⟨decide (|(x - y) / x| < relTol), ?_, ?_⟩
      · simp [floatValueEqual, pyEq, pyIsNan, pySub, pyDiv, pyAbs, pyLt, hxy, hx,
          bind, Except.bind]
      · simp [pyEq, hxy, pyNan, abs_div]

/-- Witness for C9 at `a = 1.0`, `b = 2.0`. -/
theorem floatValueEqual_spec_witness :
    (some 1 : PyFloat) ≠ some 0 ∧
      ∃ c, floatValueEqual (some 1) (some 2) = .ok c ∧
        (c = true ↔
          pyEq (some 1) (some 2) = true ∨
            ((some 1 : PyFloat) = pyNan ∧ (some 2 : PyFloat) = pyNan) ∨
            ∃ x y, (some 1 : PyFloat) = some x ∧ (some 2 : PyFloat) = some y ∧
              |x - y| / |x| < relTol) :=
  ⟨by decide, floatValueEqual_spec (some 1) (some 2) (by decide)⟩

/-- C10: `FloatAttribute.value_equal(0.0, val2)` raises `ZeroDivisionError`
for every non-NaN `val2` different from `0.0`: the exact-equality and NaN
disjuncts both fail and the tolerance expression divides by the first
operand. -/
theorem floatValueEqual_zero_raises (y : ℚ) (hy : y ≠ 0) :
    floatValueEqual (some 0) (some y) =
      .error "ZeroDivisionError: float division by zero" := by
  have hne : ¬((0 : ℚ) = y) := fun h => hy h.symm
  simp [floatValueEqual, pyEq, pyIsNan, pySub, pyDiv, hne, bind, Except.bind]

/-- Witness for C10 at `val2 = 1.0`. -/
theorem floatValueEqual_zero_raises_witness :
    (1 : ℚ) ≠ 0 ∧
      floatValueEqual (some 0) (some 1) =
        .error "ZeroDivisionError: float division by zero" :=
  ⟨one_ne_zero, floatValueEqual_zero_raises 1 one_ne_zero⟩

/-- C2 (amended to its named cases): `deserialize ∘ serialize` round-trips
there: every date with
`1900 ≤ year ≤ 9999` (ordinals `693596` to `3652059`) round-trips through
`DateAttribute` exactly; `FloatAttribute.serialize(NaN)` is `None`, which
deserializes back to NaN; and every float round-trips up to
`FloatAttribute.value_equal`. -/
theorem attribute_roundtrip :
    (∀ d : PyDate, ord19000101 ≤ d → d ≤ ordMax →
        dateDeserialize (some (dateSerialize d)) = (some d, none)) ∧
    floatSerialize pyNan = none ∧
    floatDeserialize none = (pyNan, none) ∧
    (∀ v : PyFloat,
        floatValueEqual v (floatDeserialize (floatSerialize v)).1 = .ok true) := by
  refine ⟨?_, rfl, rfl, ?_⟩
  · intro d h1 h2
    have hq : dateSerialize d = (((d : ℤ) - 693595 : ℤ) : ℚ) := by
      unfold dateSerialize ord19000101
      push_cast
      ring
    have htr : pyTrunc ((((d : ℤ) - 693595 : ℤ)) : ℚ) = (d : ℤ) - 693595 := by
      unfold pyTrunc
      rw [if_pos]
      · exact Int.floor_intCast _
      · have hd : (693596 : ℕ) ≤ d := h1
        have hq6 : (693596 : ℚ) ≤ (d : ℚ) := by exact_mod_cast hd
        push_cast
        linarith
    have hip : (d : ℤ) - 693595 + (ord19000101 : Int) - 1 = (d : ℤ) := by
      unfold ord19000101
      push_cast
      ring
    have hfrom : dateFromOrdinal ((d : ℤ) - 693595 + (ord19000101 : Int) - 1) =
        .ok d := by
      rw [hip]
      unfold dateFromOrdinal
      rw [if_pos]
      · simp
      · constructor
        · have hd : (693596 : ℕ) ≤ d := h1
          have : (693596 : ℤ) ≤ (d : ℤ) := by exact_mod_cast hd
          omega
        · exact_mod_cast h2
    simp only [dateDeserialize, dateClean, hq, htr, hfrom, eq_self_iff_true,
      if_true]
  · intro v
    match v with
    | none => rfl
    | some x => simp [floatSerialize, pyIsNan, floatDeserialize, floatClean,
        floatValueEqual, pyEq]

/-- C2 counterexample: the universal round-trip law fails outside the
claim's named cases — `None` is a valid `BooleanAttribute` value (its
`validate` accepts `None`), `serialize(None)` is `None`, and
`deserialize(None)` raises an uncaught `TypeError` instead of returning a
`(value, error)` pair. -/
theorem boolean_roundtrip_raises :
    booleanDeserialize (booleanSerialize none) =
      .error "TypeError: float() argument must be a string or a number" := rfl

/-- Witness for C2's date part at the ordinal `700000`. -/
theorem attribute_roundtrip_witness :
    ord19000101 ≤ 700000 ∧ 700000 ≤ ordMax ∧
      dateDeserialize (some (dateSerialize 700000)) = (some 700000, none) :=
  ⟨by decide, by decide, attribute_roundtrip.1 700000 (by decide) (by decide)⟩

set_option maxRecDepth 4000 in
/-- C5 (code bug in src/io.py, contradicted by the repository's own tests):
a header cell `'y'` matching no attribute makes `Reader.read_model` emit the
bare message `Header "y" does not match any attributes`, and the aggregated
message raised by `Reader.run` contains that text but no row or column
location, while tests/schema/test_io.py expects
`"Header 'y' in row 1, col F does not match any attribute"`. -/
theorem reader_header_error_lacks_location :
    readModelHeaderErrors [⟨"id", "Id"⟩] ["Id", "y"] =
      ["Header \"y\" does not match any attributes"] ∧
    strContains
        (readerAggregateMsg "Node" (readModelHeaderErrors [⟨"id", "Id"⟩] ["Id", "y"]))
        "Header \"y\" does not match any attributes" = true ∧
    strContains
        (readerAggregateMsg "Node" (readModelHeaderErrors [⟨"id", "Id"⟩] ["Id", "y"]))
        "row" = false ∧
    strContains
        (readerAggregateMsg "Node" (readModelHeaderErrors [⟨"id", "Id"⟩] ["Id", "y"]))
        "col" = false := by
  refine ⟨rfl, ?_, ?_, ?_⟩ <;> decide

/-- C8: two objects of a type whose `unique=True` attribute holds the same
value make `Model.validate_unique` return exactly one `InvalidModel`,
holding one `InvalidAttribute` for that attribute whose message names the
repeated value. -/
theorem validate_unique_duplicate_pair (v : String) :
    nodeValidateUnique [⟨v⟩, ⟨v⟩] =
      some ⟨"Node",
        [⟨"id", ["id values must be unique, but these values are repeated: " ++
          quote v]⟩]⟩ ∧
    ∃ pre post,
      ("id values must be unique, but these values are repeated: " ++ quote v) =
        pre ++ (v ++ post) := by
  constructor
  · simp [nodeValidateUnique, attrValidateUnique, repeatedVals, quote,
      String.intercalate, String.intercalate.go]
  · refine ⟨"id values must be unique, but these values are repeated: " ++ "\x27",
      "\x27", ?_⟩
    unfold quote
    rw [String.append_assoc, String.append_assoc]

/-- C3: `OneToOneAttribute.set_value(obj, new_value)` raises exactly when
`new_value` is not `None`, differs from the current value, and its reverse
attribute is occupied; otherwise (here for a changing assignment) it clears
the old peer's reverse pointer and installs `obj` as the new peer's reverse
pointer, so both ends agree on return. -/
theorem oneToOne_setValue_spec (s : OOState) (obj : Nat) (newValue : Option Nat) :
    (oneToOneSetValue s obj newValue =
        .error "ValueError: Related attribute of `new_value` must be `None`" ↔
      ∃ n, newValue = some n ∧ s.aRel obj ≠ newValue ∧ (s.bRev n).isSome) ∧
    (∀ s', oneToOneSetValue s obj newValue = .ok s' → s.aRel obj ≠ newValue →
      s'.aRel obj = newValue ∧
      (∀ n, newValue = some n → s'.bRev n = some obj) ∧
      (∀ c, s.aRel obj = some c → s'.bRev c = none)) ∧
    (s.aRel obj = newValue → oneToOneSetValue s obj newValue = .ok s) := by
  rcases newValue with _ | n
  · -- new_value is None: `new_value and ...` is falsy, so no error is possible
    rcases hc : s.aRel obj with _ | c
    · refine ⟨?_, ?_, ?_⟩
      · simp [oneToOneSetValue, hc]
      · intro s' _ hne
        exact absurd rfl hne
      · intro _
        simp only [oneToOneSetValue]
        rw [if_pos hc]
    · have hred : oneToOneSetValue s obj none = .ok
          { s with bRev := fun b => if b = c then none else s.bRev b,
                   aRel := fun a => if a = obj then none else s.aRel a } := by
        simp only [oneToOneSetValue, hc]
        rfl
      refine ⟨?_, ?_, ?_⟩
      · rw [hred]
        simp
      · intro s' hok _
        rw [hred] at hok
        cases hok
        refine ⟨by simp, by simp, ?_⟩
        intro c' hc'
        cases hc'
        simp
      · intro h
        cases h
  · by_cases hcur : s.aRel obj = some n
    · -- `cur_value is new_value`: early return, no mutation
      have hred : oneToOneSetValue s obj (some n) = .ok s := by
        simp only [oneToOneSetValue]
        rw [if_pos hcur]
      refine ⟨?_, ?_, ?_⟩
      · rw [hred]
        constructor
        · intro h
          cases h
        · rintro ⟨m, hm, hne, _⟩
          cases hm
          exact absurd hcur hne
      · intro s' _ hne
        exact absurd hcur hne
      · intro _
        exact hred
    · by_cases hb : (s.bRev n).isSome
      · -- occupied reverse slot: usage error
        have hred : oneToOneSetValue s obj (some n) =
            .error "ValueError: Related attribute of `new_value` must be `None`" := by
          simp only [oneToOneSetValue]
          rw [if_neg hcur, if_pos hb]
        refine ⟨?_, ?_, ?_⟩
        · rw [hred]
          exact ⟨fun _ => ⟨n, rfl, hcur, hb⟩, fun _ => rfl⟩
        · intro s' hok _
          rw [hred] at hok
          cases hok
        · intro h
          exact absurd h hcur
      · -- free reverse slot: clear the old peer, install the new pointer
        rcases hc : s.aRel obj with _ | c
        · have hred : oneToOneSetValue s obj (some n) = .ok
              { s with bRev := fun b => if b = n then some obj else s.bRev b,
                       aRel := fun a => if a = obj then some n else s.aRel a } := by
            simp only [oneToOneSetValue, hc]
            rw [if_neg (by simp), if_neg hb]
          refine ⟨?_, ?_, ?_⟩
          · rw [hred]
            constructor
            · intro h
              cases h
            · rintro ⟨m, hm, _, hbm⟩
              cases hm
              exact absurd hbm hb
          · intro s' hok _
            rw [hred] at hok
            cases hok
            refine ⟨by simp, ?_, ?_⟩
            · intro m hm
              cases hm
              simp
            · intro c' hc'
              cases hc'
          · intro h
            cases h
        · have hcn : c ≠ n := by
            intro h
            rw [h] at hc
            exact hcur hc
          have hred : oneToOneSetValue s obj (some n) = .ok
              { s with bRev := fun b => if b = n then some obj
                         else if b = c then none else s.bRev b,
                       aRel := fun a => if a = obj then some n else s.aRel a } := by
            simp only [oneToOneSetValue, hc]
            rw [if_neg (by simp [hcn]), if_neg hb]
          refine ⟨?_, ?_, ?_⟩
          · rw [hred]
            constructor
            · intro h
              cases h
            · rintro ⟨m, hm, _, hbm⟩
              cases hm
              exact absurd hbm hb
          · intro s' hok _
            rw [hred] at hok
            cases hok
            refine ⟨by simp, ?_, ?_⟩
            · intro m hm
              cases hm
              simp
            · intro c' hc'
              cases hc'
              simp [hcn, Ne.symm hcn]
          · intro h
            injection h with h'
            exact absurd h' hcn

/-- Witness for C3: assigning `a0.rel = b1` while `b1.arev` already points
at `a5` raises the usage error. -/
theorem oneToOne_setValue_spec_witness :
    oneToOneSetValue ooState0 0 (some 1) =
      .error "ValueError: Related attribute of `new_value` must be `None`" :=
  (oneToOne_setValue_spec ooState0 0 (some 1)).1.2 ⟨1, rfl, by decide, by decide⟩

/-- C4 (amended): `x.is_equal(x)` always returns `True` — the fresh memo
table misses and the `self is other` identity shortcut fires before any
attribute is compared. -/
theorem isEqual_refl (s : RLState) (x : RLObj) : isEqualTop s x x = .ok (some true) := by
  have h : rlEqFuel s = ((s.roots.length + s.leaves.length + 2) ^ 3 + 2) + 1 := by
    unfold rlEqFuel
    ring
  unfold isEqualTop
  rw [h]
  simp [isEqualAux, memoFind, Except.map]

/-- C4 counterexample: `is_equal` is not symmetric.  With two leaves whose
float attribute holds `0.0` and `1.0`, `l0.is_equal(l1)` raises
`ZeroDivisionError` (the tolerance divides by `l0`'s value `0.0`) while
`l1.is_equal(l0)` returns `False`. -/
theorem isEqual_not_symmetric :
    isEqualTop floatPairState (.leaf 0) (.leaf 1) =
        .error "ZeroDivisionError: float division by zero" ∧
      isEqualTop floatPairState (.leaf 1) (.leaf 0) = .ok (some false) := by
  refine ⟨rfl, ?_⟩
  have hf : rlEqFuel floatPairState = 66 + 1 := by rfl
  unfold isEqualTop
  rw [hf]
  norm_num [isEqualAux, memoFind, memoSet, isEqualAttributes, floatPairState,
    floatValueEqual, pyEq, pyIsNan, pySub, pyDiv, pyAbs, pyLt, relTol, bind,
    Except.bind, Except.map]

/-- C7 (amended): `get_related` follows every relationship attribute and its
mirror, but it excludes `self` only on the initial visit: an instance with
no related objects yields the empty closure, while an instance reachable
from one of its own related objects — here a Root whose single Leaf points
back at it — reappears and is included in its own result. -/
theorem getRelated_closure :
    (∀ s x, rlNeighbors s x = [] → getRelated s x = some []) ∧
    RLConsistent cycleState ∧
    getRelated cycleState (.root 0) = some [RLObj.leaf 0, RLObj.root 0] := by
  refine ⟨?_, ⟨?_, ?_⟩, by rfl⟩
  · intro s x hn
    have h : rlFuel s = (((s.roots.length + s.leaves.length + 2) *
        (s.roots.length + s.leaves.length + 2)) * 4 + 2) + 2 := by
      unfold rlFuel
      ring
    unfold getRelated
    rw [h]
    simp [getRelatedAux, hn]
  · intro l r
    rcases eq_or_ne l 0 with hl | hl <;> rcases eq_or_ne r 0 with hr | hr <;>
      simp [cycleState, hl, hr] <;> omega
  · intro r
    by_cases hr : r = 0 <;> simp [cycleState, hr]

/-- C7 counterexample: the claim says `x` never appears in
`x.get_related()`; in the cyclic state above the Root is an element of its
own closure (the repository's own test_get_related expects exactly this
inclusion). -/
theorem getRelated_contains_self :
    ∃ res, getRelated cycleState (.root 0) = some res ∧ RLObj.root 0 ∈ res := by
  refine ⟨[RLObj.leaf 0, RLObj.root 0], by rfl, by simp⟩

/-- Python `list.remove` on a list containing the value removes exactly the
first occurrence, i.e. agrees with `List.erase`. -/
theorem pyListRemove_eq_erase (l : List Nat) (a : Nat) (h : a ∈ l) :
    pyListRemove l a = .ok (l.erase a) := by
  induction l with
  | nil => cases h
  | cons x rest ih =>
    by_cases hx : x = a
    · subst hx
      simp [pyListRemove, List.erase_cons_head]
    · have hmem : a ∈ rest := by
        rcases List.mem_cons.mp h with h' | h'
        · exact absurd h'.symm hx
        · exact h'
      simp [pyListRemove, hx, ih hmem, List.erase_cons_tail, bind, Except.bind]

/-- Characterization of one `leaf.root = v` assignment from a consistent
state: it succeeds, the scalar side is updated pointwise, membership in
every `leaves` manager is "kept unless it is the assigned leaf, which now
sits exactly in its new target", and managers stay duplicate-free. -/
theorem leafSetRoot_spec (s : RLState) (a : Nat) (v : Option Nat)
    (hc : RLConsistent s) :
    ∃ s', leafSetRoot s a v = .ok s' ∧
      (∀ x, s'.leafRoot x = if x = a then v else s.leafRoot x) ∧
      (∀ r x, x ∈ s'.rootLeaves r ↔
        ((x ≠ a ∧ x ∈ s.rootLeaves r) ∨ (x = a ∧ v = some r))) ∧
      (∀ r, (s'.rootLeaves r).Nodup) := by
  obtain ⟨hfwd, hnd⟩ := hc
  by_cases hcur : s.leafRoot a = v
  · -- `cur_value is new_value`: no mutation
    refine ⟨s, ?_, ?_, ?_, hnd⟩
    · simp only [leafSetRoot]
      rw [if_pos hcur]
      rfl
    · intro x
      by_cases hx : x = a
      · subst hx
        rw [if_pos rfl, hcur]
      · rw [if_neg hx]
    · intro r x
      by_cases hx : x = a
      · subst hx
        rw [← hfwd, hcur]
        constructor
        · intro h
          exact Or.inr ⟨rfl, h⟩
        · rintro (⟨h, _⟩ | ⟨_, h⟩)
          · exact absurd rfl h
          · exact h
      · constructor
        · intro h
          exact Or.inl ⟨hx, h⟩
        · rintro (⟨_, h⟩ | ⟨h, _⟩)
          · exact h
          · exact absurd h hx
  · rcases hcv : s.leafRoot a with _ | c
    · -- no old target; since `cur ≠ v`, the new value is a Root
      rcases v with _ | n
      · exact absurd hcv hcur
      have hnotin : a ∉ s.rootLeaves n := by
        intro hmem
        have := (hfwd a n).mpr hmem
        rw [hcv] at this
        cases this
      refine ⟨{ s with
          leafRoot := fun x => if x = a then some n else s.leafRoot x,
          rootLeaves := fun r =>
            if r = n then s.rootLeaves n ++ [a] else s.rootLeaves r },
        ?_, ?_, ?_, ?_⟩
      · simp only [leafSetRoot]
        rw [if_neg hcur, hcv]
        simp [bind, Except.bind, pure, Except.pure, managerAppend, hnotin]
      · intro x
        rfl
      · intro r x
        dsimp only
        by_cases hr : r = n
        · subst hr
          rw [if_pos rfl, List.mem_append, List.mem_singleton]
          constructor
          · rintro (h | h)
            · refine Or.inl ⟨?_, h⟩
              intro hx
              rw [hx] at h
              exact hnotin h
            · exact Or.inr ⟨h, rfl⟩
          · rintro (⟨_, h⟩ | ⟨h, _⟩)
            · exact Or.inl h
            · exact Or.inr h
        · rw [if_neg hr]
          constructor
          · intro h
            refine Or.inl ⟨?_, h⟩
            intro hx
            rw [hx] at h
            have := (hfwd a r).mpr h
            rw [hcv] at this
            cases this
          · rintro (⟨_, h⟩ | ⟨_, h⟩)
            · exact h
            · cases h
              exact absurd rfl hr
      · intro r
        dsimp only
        by_cases hr : r = n
        · subst hr
          rw [if_pos rfl, ← List.concat_eq_append]
          exact (hnd r).concat hnotin
        · rw [if_neg hr]
          exact hnd r
    · -- old target `c`: remove from its manager, then install the new value
      have hina : a ∈ s.rootLeaves c := (hfwd a c).mp hcv
      have hrem := pyListRemove_eq_erase (s.rootLeaves c) a hina
      rcases v with _ | n
      · -- v is None: only the removal happens
        refine ⟨{ s with
            leafRoot := fun x => if x = a then none else s.leafRoot x,
            rootLeaves := fun r =>
              if r = c then (s.rootLeaves c).erase a else s.rootLeaves r },
          ?_, ?_, ?_, ?_⟩
        · simp only [leafSetRoot]
          rw [if_neg hcur, hcv]
          simp [hrem, bind, Except.bind, pure, Except.pure]
        · intro x
          rfl
        · intro r x
          dsimp only
          by_cases hr : r = c
          · subst hr
            rw [if_pos rfl, (hnd r).mem_erase_iff]
            constructor
            · rintro ⟨h1, h2⟩
              exact Or.inl ⟨h1, h2⟩
            · rintro (⟨h1, h2⟩ | ⟨_, h⟩)
              · exact ⟨h1, h2⟩
              · cases h
          · rw [if_neg hr]
            constructor
            · intro h
              refine Or.inl ⟨?_, h⟩
              intro hx
              rw [hx] at h
              have := (hfwd a r).mpr h
              rw [hcv] at this
              exact hr (Option.some_injective _ this).symm
            · rintro (⟨_, h⟩ | ⟨_, h⟩)
              · exact h
              · cases h
        · intro r
          dsimp only
          by_cases hr : r = c
          · subst hr
            rw [if_pos rfl]
            exact (hnd r).erase a
          · rw [if_neg hr]
            exact hnd r
      · -- v = some n with n ≠ c
        have hnc : n ≠ c := by
          intro h
          subst h
          exact hcur hcv
        have hnotin : a ∉ s.rootLeaves n := by
          intro hmem
          have := (hfwd a n).mpr hmem
          rw [hcv] at this
          exact hnc (Option.some_injective _ this.symm)
        refine ⟨{ s with
            leafRoot := fun x => if x = a then some n else s.leafRoot x,
            rootLeaves := fun r =>
              if r = n then s.rootLeaves n ++ [a]
              else if r = c then (s.rootLeaves c).erase a else s.rootLeaves r },
          ?_, ?_, ?_, ?_⟩
        · simp only [leafSetRoot]
          rw [if_neg hcur, hcv]
          simp [hrem, bind, Except.bind, pure, Except.pure, managerAppend, hnc,
            hnotin]
        · intro x
          rfl
        · intro r x
          dsimp only
          by_cases hr1 : r = n
          · subst hr1
            rw [if_pos rfl, List.mem_append, List.mem_singleton]
            constructor
            · rintro (h | h)
              · refine Or.inl ⟨?_, h⟩
                intro hx
                rw [hx] at h
                exact hnotin h
              · exact Or.inr ⟨h, rfl⟩
            · rintro (⟨_, h⟩ | ⟨h, _⟩)
              · exact Or.inl h
              · exact Or.inr h
          · rw [if_neg hr1]
            by_cases hr2 : r = c
            · subst hr2
              rw [if_pos rfl, (hnd r).mem_erase_iff]
              constructor
              · rintro ⟨h1, h2⟩
                exact Or.inl ⟨h1, h2⟩
              · rintro (⟨h1, h2⟩ | ⟨_, h⟩)
                · exact ⟨h1, h2⟩
                · cases h
                  exact absurd rfl hr1
            · rw [if_neg hr2]
              constructor
              · intro h
                refine Or.inl ⟨?_, h⟩
                intro hx
                rw [hx] at h
                have := (hfwd a r).mpr h
                rw [hcv] at this
                exact hr2 (Option.some_injective _ this).symm
              · rintro (⟨_, h⟩ | ⟨_, h⟩)
                · exact h
                · cases h
                  exact absurd rfl hr1
        · intro r
          dsimp only
          by_cases hr1 : r = n
          · subst hr1
            rw [if_pos rfl, ← List.concat_eq_append]
            exact (hnd r).concat hnotin
          · rw [if_neg hr1]
            by_cases hr2 : r = c
            · subst hr2
              rw [if_pos rfl]
              exact (hnd r).erase a
            · rw [if_neg hr2]
              exact hnd r

/-- Consistency is preserved by every `leaf.root = v` assignment. -/
theorem leafSetRoot_consistent (s s' : RLState) (a : Nat) (v : Option Nat)
    (hc : RLConsistent s) (h : leafSetRoot s a v = .ok s') :
    RLConsistent s' := by
  obtain ⟨t, ht, h1, h2, h3⟩ := leafSetRoot_spec s a v hc
  rw [ht] at h
  cases h
  refine ⟨?_, h3⟩
  intro l r
  rw [h1 l, h2 r l]
  by_cases hl : l = a
  · subst hl
    rw [if_pos rfl]
    constructor
    · intro hv
      exact Or.inr ⟨rfl, hv⟩
    · rintro (⟨h', _⟩ | ⟨_, hv⟩)
      · exact absurd rfl h'
      · exact hv
  · rw [if_neg hl]
    rw [hc.1 l r]
    constructor
    · intro hm
      exact Or.inl ⟨hl, hm⟩
    · rintro (⟨_, hm⟩ | ⟨h', _⟩)
      · exact hm
      · exact absurd h' hl

/-- The empty scenario arena is consistent. -/
theorem scenarioConsistent : RLConsistent scenarioState := by
  constructor
  · intro l r
    simp [scenarioState]
  · intro r
    simp [scenarioState]

/-- C1: assigning a many-to-one attribute maintains the mirrored
collection: from any consistent state, after `a.root = r1` the leaf is in
`r1.leaves`; a subsequent reassignment to a different `r2` removes it from
`r1.leaves` and adds it to `r2.leaves`, and `a.root = None` removes it
from `r1.leaves`; and in the spec's scenario `r.leaves` is exactly
`[l1, l2]` after the two constructions and exactly `[l2]` after
`l1.root = None`. -/
theorem manyToOne_backlink_spec :
    (∀ s a r1 r2, RLConsistent s →
      ∃ s1, leafSetRoot s a (some r1) = .ok s1 ∧ a ∈ s1.rootLeaves r1 ∧
        (r2 ≠ r1 → ∃ s2, leafSetRoot s1 a (some r2) = .ok s2 ∧
          a ∉ s2.rootLeaves r1 ∧ a ∈ s2.rootLeaves r2) ∧
        (∃ s3, leafSetRoot s1 a none = .ok s3 ∧ a ∉ s3.rootLeaves r1)) ∧
    ((do
        let s1 ← leafSetRoot scenarioState 1 (some 0)
        let s2 ← leafSetRoot s1 2 (some 0)
        pure (s2.rootLeaves 0) : Except String (List Nat)) = .ok [1, 2]) ∧
    ((do
        let s1 ← leafSetRoot scenarioState 1 (some 0)
        let s2 ← leafSetRoot s1 2 (some 0)
        let s3 ← leafSetRoot s2 1 none
        pure (s3.rootLeaves 0) : Except String (List Nat)) = .ok [2]) := by
  refine ⟨?_, rfl, rfl⟩
  intro s a r1 r2 hc
  obtain ⟨s1, h1eq, _, h1mem, _⟩ := leafSetRoot_spec s a (some r1) hc
  have hc1 : RLConsistent s1 := leafSetRoot_consistent s s1 a (some r1) hc h1eq
  refine ⟨s1, h1eq, ?_, ?_, ?_⟩
  · exact (h1mem r1 a).mpr (Or.inr ⟨rfl, rfl⟩)
  · intro hne
    obtain ⟨s2, h2eq, _, h2mem, _⟩ := leafSetRoot_spec s1 a (some r2) hc1
    refine ⟨s2, h2eq, ?_, ?_⟩
    · intro hmem
      rcases (h2mem r1 a).mp hmem with ⟨h', _⟩ | ⟨_, h'⟩
      · exact absurd rfl h'
      · exact hne (Option.some_injective _ h')
    · exact (h2mem r2 a).mpr (Or.inr ⟨rfl, rfl⟩)
  · obtain ⟨s3, h3eq, _, h3mem, _⟩ := leafSetRoot_spec s1 a none hc1
    refine ⟨s3, h3eq, ?_⟩
    intro hmem
    rcases (h3mem r1 a).mp hmem with ⟨h', _⟩ | ⟨_, h'⟩
    · exact absurd rfl h'
    · cases h'

/-- Witness for C1 at the scenario arena (`a = l1`, `r1 = r`, `r2 = 1`). -/
theorem manyToOne_backlink_spec_witness :
    RLConsistent scenarioState ∧
      ∃ s1, leafSetRoot scenarioState 1 (some 0) = .ok s1 ∧
        1 ∈ s1.rootLeaves 0 ∧
        (∃ s2, leafSetRoot s1 1 (some 1) = .ok s2 ∧
          1 ∉ s2.rootLeaves 0 ∧ 1 ∈ s2.rootLeaves 1) ∧
        (∃ s3, leafSetRoot s1 1 none = .ok s3 ∧ 1 ∉ s3.rootLeaves 0) := by
  refine ⟨scenarioConsistent, ?_⟩
  obtain ⟨s1, h1, h2, h3, h4⟩ :=
    manyToOne_backlink_spec.1 scenarioState 1 0 1 scenarioConsistent
  exact ⟨s1, h1, h2, h3 (by decide), h4⟩

/-- Helper for C6: the sheet names produced by the writer's model loop are
exactly the non-inline models' plural names, in order. -/
theorem writer_sheet_names_eq (models : List WModel) (objects : List NodeObj) :
    ((models.filterMap (writerSheetFor objects)).map Prod.fst) =
      (models.filter nonInline).map wSheetName := by
  induction models with
  | nil => rfl
  | cons m rest ih =>
    cases m
    · rw [show (WModel.node :: rest).filterMap (writerSheetFor objects) =
          writeModelSheet objects WModel.node ::
            rest.filterMap (writerSheetFor objects) from rfl]
      rw [show (WModel.node :: rest).filter nonInline =
          WModel.node :: rest.filter nonInline from rfl]
      simp [ih, writeModelSheet, wSheetName]
    · rw [show (WModel.extra :: rest).filterMap (writerSheetFor objects) =
          writeModelSheet [] WModel.extra ::
            rest.filterMap (writerSheetFor objects) from rfl]
      rw [show (WModel.extra :: rest).filter nonInline =
          WModel.extra :: rest.filter nonInline from rfl]
      simp [ih, writeModelSheet, wSheetName]
    · rw [show (WModel.inlineM :: rest).filterMap (writerSheetFor objects) =
          rest.filterMap (writerSheetFor objects) from rfl]
      rw [show (WModel.inlineM :: rest).filter nonInline =
          rest.filter nonInline from rfl]
      exact ih

/-- C6 (amended): `Writer.run` writes one sheet per non-inline model in the
caller's ordering when every object is valid; but invalid objects are not
skipped — the code reaches `warnings.warn(...)` with only `warn` imported,
so the whole write fails with a `NameError`. -/
theorem writer_run_spec :
    (∀ objects models, validatorRun objects = none → WModel.node ∈ models →
      (writerRun objects models).map (List.map Prod.fst) =
        .ok ((models.filter nonInline).map wSheetName)) ∧
    (∀ objects models e, validatorRun objects = some e →
      writerRun objects models =
        .error "NameError: name \x27warnings\x27 is not defined") := by
  constructor
  · intro objects models hval hmem
    have hun : (if objects ≠ [] ∧ WModel.node ∉ models then [WModel.node] else []) =
        [] := by
      rw [if_neg]
      rintro ⟨_, hnm⟩
      exact hnm hmem
    simp only [writerRun, hval, hun, List.append_nil, Except.map]
    exact congrArg Except.ok (writer_sheet_names_eq models objects)
  · intro objects models e hval
    simp only [writerRun, hval]

/-- C6 counterexample: with an invalid object (`id = "xx"` exceeds
`max_length=1`) the write raises instead of skipping the object with a
warning. -/
theorem writer_run_invalid_raises :
    writerRun [⟨"xx"⟩] [WModel.node] =
      .error "NameError: name \x27warnings\x27 is not defined" := rfl

/-- Witness for C6 with one valid object and all three models, and with one
invalid object. -/
theorem writer_run_spec_witness :
    (validatorRun [⟨"a"⟩] = none ∧
      WModel.node ∈ [WModel.node, WModel.extra, WModel.inlineM] ∧
      (writerRun [⟨"a"⟩] [WModel.node, WModel.extra, WModel.inlineM]).map
          (List.map Prod.fst) =
        .ok (([WModel.node, WModel.extra, WModel.inlineM].filter nonInline).map
          wSheetName)) ∧
    writerRun [⟨"xx"⟩] [WModel.node, WModel.extra, WModel.inlineM] =
      .error "NameError: name \x27warnings\x27 is not defined" :=
  ⟨⟨rfl, by simp,
      writer_run_spec.1 [⟨"a"⟩] [WModel.node, WModel.extra, WModel.inlineM] rfl
        (by simp)⟩,
    writer_run_spec.2 [⟨"xx"⟩] [WModel.node, WModel.extra, WModel.inlineM] _ rfl⟩

/-- Witness for C7's empty-closure part at a leaf with no root. -/
theorem getRelated_closure_witness :
    rlNeighbors floatPairState (.leaf 0) = [] ∧
      getRelated floatPairState (.leaf 0) = some [] :=
  ⟨by rfl, getRelated_closure.1 floatPairState (.leaf 0) (by rfl)⟩

end WcSchema
